import Mathlib

/-
Verification of the core of `orx-concurrent-option` against its
natural-language specification.

The development is a shallow embedding of the crate's single-threaded
(sequential) semantics:

* The atomic tag `AtomicU8` is modelled as a `Nat` holding one of the three
  constants `NONE`, `RESERVED`, `SOME` of `src/states.rs`.
* The storage cell `UnsafeCell<MaybeUninit<T>>` is modelled as an `Option T`:
  `Option.none` stands for "not (or no longer) logically initialized".
  `MaybeUninit::assume_init_read` moves the value out, so the model sets the
  cell to `Option.none` at that point; reading an uninitialized cell is
  undefined behavior in the source and is modelled as an undefined (absent)
  result.
* Atomic loads/stores/compare-exchanges become plain reads and writes: in a
  single-threaded execution the memory ordering argument has no observable
  effect, so `loadState` ignores it (but the embedding keeps the argument so
  that the orderings written in the source remain visible in the
  definitions).
* Operations that can spin forever (the `spin_get` retry loop observes
  `RESERVED`, which no other thread can ever change in a sequential
  execution) return `Option.none` at the outermost layer: `Option.none`
  means "the call does not return" (divergence, or undefined behavior on an
  uninitialized read).
* A closure that may panic is modelled by returning, next to the value it
  left in the cell, a marker of whether it panicked; unwinding then follows
  the source's `Drop` implementations (`Handle::drop` republishes the
  success tag, a plain binding runs `ConcurrentOption`'s own `Drop`).
-/

/-- Memory orderings of `core::sync::atomic::Ordering`.  Sequentially they do
not change the observed value; they are kept so that definitions record the
ordering used by the source. -/
inductive AtomicOrdering : Type
  | Relaxed
  | Release
  | Acquire
  | AcqRel
  | SeqCst
deriving DecidableEq, Repr

/-- `src/states.rs`: `pub type StateU8 = u8;` -/
abbrev StateU8 := Nat

/-- `src/states.rs`: state where the optional does not have a value. -/
def NONE : StateU8 := 0

/-- `src/states.rs`: state where the optional's value is being transitioned. -/
def RESERVED : StateU8 := 1

/-- `src/states.rs`: state where the optional contains a value. -/
def SOME : StateU8 := 2

/-- `src/states.rs`: `ORDER_LOAD = Ordering::Acquire`. -/
def ORDER_LOAD : AtomicOrdering := AtomicOrdering.Acquire

/-- `src/states.rs`: `ORDER_STORE = Ordering::SeqCst`. -/
def ORDER_STORE : AtomicOrdering := AtomicOrdering.SeqCst

/-- `src/states.rs`: the `State` enum exposed to users. -/
inductive State : Type
  | None
  | Some
  | Reserved
deriving DecidableEq, Repr

/-- `src/states.rs` `State::new`: maps the raw tag to the `State` enum and
panics on any other value; the panic is modelled as `Option.none`. -/
def State.new (state : StateU8) : Option State :=
  if state = NONE then Option.some State.None
  else if state = SOME then Option.some State.Some
  else if state = RESERVED then Option.some State.Reserved
  else Option.none

/-- `src/concurrent_option.rs`: the core type.  `value` models the
`UnsafeCell<MaybeUninit<T>>` cell (`Option.none` = logically uninitialized),
`state` models the `AtomicU8` tag. -/
structure ConcurrentOption (T : Type) where
  value : Option T
  state : StateU8
deriving DecidableEq, Repr

/-- Atomic load of the tag.  Sequentially the ordering cannot affect the
loaded value, so it is ignored; the call sites pass the ordering written in
the source. -/
def loadState {T : Type} (o : ConcurrentOption T) (_order : AtomicOrdering) : StateU8 :=
  o.state

/-- `src/new.rs` `ConcurrentOption::some`: cell initialized with `value`,
tag `SOME`. -/
def ConcurrentOption.some {T : Type} (value : T) : ConcurrentOption T :=
  ⟨Option.some value, SOME⟩

/-- `src/new.rs` `ConcurrentOption::none`: cell left uninitialized, tag
`NONE`. -/
def ConcurrentOption.none {T : Type} : ConcurrentOption T :=
  ⟨Option.none, NONE⟩

/-- `src/handle.rs`: the RAII handle; it stores the `success_state` that its
`Drop` implementation publishes. -/
structure Handle where
  success_state : StateU8
deriving DecidableEq, Repr

/-- `src/handle.rs` `Handle::get`: a single
`compare_exchange(initial_state, RESERVED, Acquire, Relaxed)` on the tag.
It succeeds (and moves the tag to `RESERVED`) exactly when the current tag
equals `initial_state`; on any other observed tag — `RESERVED` included — it
returns `None` without retrying. -/
def Handle.get (current initial_state success_state : StateU8) : Option Handle :=
  if current = initial_state then Option.some ⟨success_state⟩ else Option.none

/-- Outcome of `Handle::spin_get` in the sequential model. -/
inductive SpinResult : Type
  | acquired (h : Handle)
  | failed
  | diverge
deriving DecidableEq, Repr

/-- `src/handle.rs` `Handle::spin_get`: retries the compare-exchange while
the observed tag is `RESERVED`.  Sequentially no other thread can change the
tag, so observing `RESERVED` (when it is not the expected tag) spins forever:
that is the `diverge` outcome.  Any other mismatch returns `None`
(`failed`). -/
def Handle.spinGet (current initial_state success_state : StateU8) : SpinResult :=
  if current = initial_state then SpinResult.acquired ⟨success_state⟩
  else if current = RESERVED then SpinResult.diverge
  else SpinResult.failed

/-- `src/handle.rs` `impl Drop for Handle`: a
`compare_exchange(RESERVED, success_state, Release, Relaxed)` that panics
(`expect`) when the tag is not `RESERVED`; the panic is modelled as
`Option.none`, success returns the published tag. -/
def Handle.dropPublish (h : Handle) (current : StateU8) : Option StateU8 :=
  if current = RESERVED then Option.some h.success_state else Option.none

/-- `src/concurrent.rs` `ConcurrentOption::initialize_if_none`:
`get_handle(NONE, SOME)`; on success write `value` into the cell (while the
tag is `RESERVED`) and let the handle's drop publish `SOME`; on failure
return `false` leaving the option untouched. -/
def initialize_if_none {T : Type} (o : ConcurrentOption T) (value : T) :
    ConcurrentOption T × Bool :=
  match Handle.get o.state NONE SOME with
  | Option.some h => (⟨Option.some value, h.success_state⟩, true)
  | Option.none => (o, false)

/-- Sequential harness for the "among any sequence of initialization
attempts exactly the first succeeds" part of the spec: folds
`initialize_if_none` over a list of values, collecting the returned
booleans. -/
def initialize_all {T : Type} (o : ConcurrentOption T) (vs : List T) :
    ConcurrentOption T × List Bool :=
  match vs with
  | [] => (o, [])
  | v :: rest =>
    let r := initialize_if_none o v
    let r2 := initialize_all r.1 rest
    (r2.1, r.2 :: r2.2)

/-- `src/concurrent.rs` `ConcurrentOption::take`:
`spin_get_handle(SOME, NONE)`; on success `assume_init_read` the cell (the
value is moved out) and let the handle's drop publish `NONE`; on a
definitive mismatch return `None` leaving the option untouched.  The outer
`Option.none` marks divergence (spinning on `RESERVED`) or the undefined
read of an uninitialized cell. -/
def take {T : Type} (o : ConcurrentOption T) :
    Option (ConcurrentOption T × Option T) :=
  match Handle.spinGet o.state SOME NONE with
  | SpinResult.acquired h =>
    match o.value with
    | Option.some x => Option.some (⟨Option.none, h.success_state⟩, Option.some x)
    | Option.none => Option.none
  | SpinResult.failed => Option.some (o, Option.none)
  | SpinResult.diverge => Option.none

/-- `src/concurrent.rs` `ConcurrentOption::take_if`: a raw
`compare_exchange(SOME, RESERVED)` (no RAII handle); on success the
predicate runs on `&mut` access to the value (modelled as
`predicate : T → T × Bool`, returning the value it leaves in the cell and
its verdict); `true` moves the value out and publishes `NONE`, `false`
leaves the (possibly mutated) value and publishes `SOME` — both via a second
raw compare-exchange from `RESERVED`.  `Err(RESERVED)` retries (sequential
divergence), any other `Err` returns `None`. -/
def take_if {T : Type} (o : ConcurrentOption T) (predicate : T → T × Bool) :
    Option (ConcurrentOption T × Option T) :=
  if o.state = SOME then
    match o.value with
    | Option.some x =>
      let r := predicate x
      if r.2 then Option.some (⟨Option.none, NONE⟩, Option.some r.1)
      else Option.some (⟨Option.some r.1, SOME⟩, Option.none)
    | Option.none => Option.none
  else if o.state = RESERVED then Option.none
  else Option.some (o, Option.none)

/-- `src/concurrent.rs` `ConcurrentOption::update_if_some`:
`spin_get_handle(SOME, SOME)`; on success apply `f` to the value in place
and let the handle's drop publish `SOME`.  The result of the inner `match`
is discarded by the source (`;`), and the function returns `true` on every
path that returns at all. -/
def update_if_some {T : Type} (o : ConcurrentOption T) (f : T → T) :
    Option (ConcurrentOption T × Bool) :=
  match Handle.spinGet o.state SOME SOME with
  | SpinResult.acquired h =>
    match o.value with
    | Option.some x => Option.some (⟨Option.some (f x), h.success_state⟩, true)
    | Option.none => Option.none
  | SpinResult.failed => Option.some (o, true)
  | SpinResult.diverge => Option.none

/-- `src/concurrent.rs` `ConcurrentOption::replace`: a loop that first tries
`spin_get_handle(SOME, SOME)` (swap the new value in, return the old one),
then `spin_get_handle(NONE, SOME)` (write the value, return `None`).  If
both attempts fail definitively the loop repeats; sequentially the tag
cannot change, so that (like spinning) never returns. -/
def replace {T : Type} (o : ConcurrentOption T) (value : T) :
    Option (ConcurrentOption T × Option T) :=
  match Handle.spinGet o.state SOME SOME with
  | SpinResult.acquired h =>
    match o.value with
    | Option.some old => Option.some (⟨Option.some value, h.success_state⟩, Option.some old)
    | Option.none => Option.none
  | SpinResult.diverge => Option.none
  | SpinResult.failed =>
    match Handle.spinGet o.state NONE SOME with
    | SpinResult.acquired h => Option.some (⟨Option.some value, h.success_state⟩, Option.none)
    | _ => Option.none

/-- `src/exclusive.rs` `ConcurrentOption::exclusive_take`: matches on
`State::new(self.state.load(Relaxed))`; on `State::Some` stores `NONE` and
`assume_init_read`s the cell (the value is moved out); every other valid
state returns `None` without touching anything.  `State::new` panics on an
invalid tag, modelled by the outer `Option.none`. -/
def exclusive_take {T : Type} (o : ConcurrentOption T) :
    Option (ConcurrentOption T × Option T) :=
  match State.new (loadState o AtomicOrdering.Relaxed) with
  | Option.some State.Some => Option.some (⟨Option.none, NONE⟩, o.value)
  | Option.some _ => Option.some (o, Option.none)
  | Option.none => Option.none

/-- `src/option.rs` `ConcurrentOption::map`: `pub fn map<U, F>(mut self, f: F)`
— it consumes `self` and is implemented as `self.exclusive_take().map(f)`.
The embedding also returns the final state of the consumed binding (the
state `self` is in just before it is dropped at the end of the call), so
that the effect of the call on the option is observable. -/
def map {T U : Type} (o : ConcurrentOption T) (f : T → U) :
    Option (ConcurrentOption T × Option U) :=
  match exclusive_take o with
  | Option.some (o2, x) => Option.some (o2, x.map f)
  | Option.none => Option.none

/-- `src/with_order.rs` `ConcurrentOption::is_some_with_order`:
`self.state.load(order) == SOME`. -/
def is_some_with_order {T : Type} (o : ConcurrentOption T)
    (order : AtomicOrdering) : Bool :=
  loadState o order == SOME

/-- `src/with_order.rs` `ConcurrentOption::is_none_with_order`:
`self.state.load(order) != SOME`. -/
def is_none_with_order {T : Type} (o : ConcurrentOption T)
    (order : AtomicOrdering) : Bool :=
  loadState o order != SOME

/-- `src/option.rs` `ConcurrentOption::is_some`: `is_some_with_order(ORDER_LOAD)`. -/
def is_some {T : Type} (o : ConcurrentOption T) : Bool :=
  is_some_with_order o ORDER_LOAD

/-- `src/option.rs` `ConcurrentOption::is_none`: `is_none_with_order(ORDER_LOAD)`. -/
def is_none {T : Type} (o : ConcurrentOption T) : Bool :=
  is_none_with_order o ORDER_LOAD

/-- What `impl Drop for ConcurrentOption` does. -/
inductive DropAction (T : Type) : Type
  | dropsValue (contents : Option T)
  | nothing
  | panics
deriving DecidableEq, Repr

/-- `src/drop.rs` `impl Drop for ConcurrentOption`: load the tag with
`Ordering::Relaxed`; on `SOME` run the contained value's destructor in place
(`assume_init_drop`), on `RESERVED` panic, otherwise do nothing. -/
def drop_impl {T : Type} (o : ConcurrentOption T) : DropAction T :=
  let tag := loadState o AtomicOrdering.Relaxed
  if tag = SOME then DropAction.dropsValue o.value
  else if tag = RESERVED then DropAction.panics
  else DropAction.nothing

/-- Result of a call whose closure may panic: either the ordinary result, or
the panic propagating out of the call. -/
inductive PanicOr (α : Type) : Type
  | ok (a : α)
  | panicked
deriving DecidableEq, Repr

/-- Unwinding semantics of `ConcurrentOption::map` (`src/option.rs`): the
source is `self.exclusive_take().map(f)`, so `f` runs on the owned value
*after* `exclusive_take` has already stored the terminal tag `NONE` — there
is no critical section and no handle.  The closure is modelled as
`f : T → Option U` with `Option.none` meaning `f` panicked; either way the
consumed binding (returned alongside the outcome, as in `map`) is in the
`NONE`-tagged state when it is dropped during unwinding, and
`ConcurrentOption`'s own `Drop` then does nothing. -/
def mapUnwind {T U : Type} (o : ConcurrentOption T) (f : T → Option U) :
    Option (ConcurrentOption T × PanicOr (Option U)) :=
  match exclusive_take o with
  | Option.some (o2, Option.some x) =>
    match f x with
    | Option.some u => Option.some (o2, PanicOr.ok (Option.some u))
    | Option.none => Option.some (o2, PanicOr.panicked)
  | Option.some (o2, Option.none) => Option.some (o2, PanicOr.ok Option.none)
  | Option.none => Option.none

/-- Unwinding semantics of `ConcurrentOption::update_if_some`
(`src/concurrent.rs`): the closure is modelled as `f : T → T × Bool`,
returning the value it left in the cell and whether it panicked at that
point.  The critical section is guarded by the RAII `Handle`, whose `Drop`
runs during unwinding as well and republishes its success state `SOME`, so
the tag is terminal whether or not `f` panics. -/
def update_if_someUnwind {T : Type} (o : ConcurrentOption T) (f : T → T × Bool) :
    Option (ConcurrentOption T × PanicOr Bool) :=
  match Handle.spinGet o.state SOME SOME with
  | SpinResult.acquired h =>
    match o.value with
    | Option.some x =>
      let r := f x
      if r.2 then Option.some (⟨Option.some r.1, h.success_state⟩, PanicOr.panicked)
      else Option.some (⟨Option.some r.1, h.success_state⟩, PanicOr.ok true)
    | Option.none => Option.none
  | SpinResult.failed => Option.some (o, PanicOr.ok true)
  | SpinResult.diverge => Option.none

/-- Unwinding semantics of `ConcurrentOption::take_if`
(`src/concurrent.rs`): the predicate is modelled as
`predicate : T → T × Option Bool`, returning the value it left in the cell
and its verdict, with verdict `Option.none` meaning it panicked.  `take_if`
enters the critical section with a *raw* `compare_exchange(SOME, RESERVED)`
and holds no RAII handle, so when the predicate panics the second
compare-exchange is never executed and the tag is left `RESERVED`. -/
def take_ifUnwind {T : Type} (o : ConcurrentOption T)
    (predicate : T → T × Option Bool) :
    Option (ConcurrentOption T × PanicOr (Option T)) :=
  if o.state = SOME then
    match o.value with
    | Option.some x =>
      let r := predicate x
      match r.2 with
      | Option.none => Option.some (⟨Option.some r.1, RESERVED⟩, PanicOr.panicked)
      | Option.some true => Option.some (⟨Option.none, NONE⟩, PanicOr.ok (Option.some r.1))
      | Option.some false => Option.some (⟨Option.some r.1, SOME⟩, PanicOr.ok Option.none)
    | Option.none => Option.none
  else if o.state = RESERVED then Option.none
  else Option.some (o, PanicOr.ok Option.none)

/-- Helper for C1: once the option is in the `SOME`-tagged state, every
later `initialize_if_none` attempt fails and leaves it unchanged. -/
theorem initialize_all_on_some {T : Type} (w : T) (vs : List T) :
    initialize_all (ConcurrentOption.some w) vs
      = (ConcurrentOption.some w, vs.map fun _ => false) := by
  induction vs with
  | nil => rfl
  | cons v rest ih =>
    simp only [initialize_all, List.map_cons]
    rw [show initialize_if_none (ConcurrentOption.some w) v
          = (ConcurrentOption.some w, false) from rfl]
    rw [ih]

/-- C1: `initialize_if_none(v)` on a `None`-state option stores `v`, leaves
the option in the `Some` state and returns `true`; on a `Some`-state option
it returns `false` and leaves the existing content unchanged (`v` is simply
not stored); and over any sequence of initialization attempts starting from
`None`, exactly the first succeeds and its value is the final content. -/
theorem initialize_if_none_spec {T : Type} (v w : T) (vs : List T) :
    initialize_if_none (ConcurrentOption.none : ConcurrentOption T) v
      = (ConcurrentOption.some v, true)
  ∧ initialize_if_none (ConcurrentOption.some w) v = (ConcurrentOption.some w, false)
  ∧ initialize_all (ConcurrentOption.none : ConcurrentOption T) (v :: vs)
      = (ConcurrentOption.some v, true :: vs.map fun _ => false) := by
  refine ⟨rfl, rfl, ?_⟩
  simp only [initialize_all]
  rw [show initialize_if_none (ConcurrentOption.none : ConcurrentOption T) v
        = (ConcurrentOption.some v, true) from rfl]
  rw [initialize_all_on_some]

/-- C2: `take()` on a `Some(v)`-state option returns `Some v` and leaves the
option in the `None` state (so after `new_occupied(v); take()` the option
`is_none`); `take()` on a `None`-state option returns `None` and changes
neither the tag nor the stored contents of the cell. -/
theorem take_spec {T : Type} (v : T) (c : Option T) :
    take (ConcurrentOption.some v)
      = Option.some ((ConcurrentOption.none : ConcurrentOption T), Option.some v)
  ∧ (take (ConcurrentOption.some v)).map (fun r => is_none r.1) = Option.some true
  ∧ take (⟨c, NONE⟩ : ConcurrentOption T) = Option.some (⟨c, NONE⟩, Option.none) :=
  ⟨rfl, rfl, rfl⟩

/-- C3 (code bug): the source `map` is `pub fn map<U, F>(mut self, f)` — it
consumes the option through `exclusive_take`.  Evaluating the embedded code
at the failing input (an option in state `Some 42` with `f = (· + 1)`): the
call does return `Some (f 42) = Some 43`, but the consumed option's final
state is the `NONE`-tagged empty state, not the `Some`-state the claim (and
the crate's own struct-level documentation and tests, which call `map`
through a shared reference) require. -/
theorem map_consumes_self_cex :
    map (ConcurrentOption.some 42) (fun x : Nat => x + 1)
      = Option.some ((ConcurrentOption.none : ConcurrentOption Nat), Option.some 43)
  ∧ (ConcurrentOption.none : ConcurrentOption Nat).state ≠ SOME :=
  ⟨rfl, by decide⟩

/-- C4: on a `Some(v)`-state option, `take_if(p)` runs the predicate once on
mutable access to `v`; verdict `true` moves the (possibly mutated) value out,
leaves the option `None` and returns it; verdict `false` keeps the possibly
mutated value in the `Some` state and returns `None`.  Lifting any predicate
with an invocation counter shows it is invoked exactly once.  On a
`None`-state option the result is `None`, independent of the predicate
(which is never invoked). -/
theorem take_if_spec {T : Type} (v : T) (p : T → T × Bool) :
    take_if (ConcurrentOption.some v) p
      = (if (p v).2 then
          Option.some ((ConcurrentOption.none : ConcurrentOption T), Option.some (p v).1)
         else Option.some (ConcurrentOption.some (p v).1, Option.none))
  ∧ take_if (ConcurrentOption.some (v, 0))
        (fun xn : T × Nat => (((p xn.1).1, xn.2 + 1), (p xn.1).2))
      = (if (p v).2 then
          Option.some ((ConcurrentOption.none : ConcurrentOption (T × Nat)),
            Option.some ((p v).1, 1))
         else Option.some (ConcurrentOption.some ((p v).1, 1), Option.none))
  ∧ take_if (ConcurrentOption.none : ConcurrentOption T) p
      = Option.some (ConcurrentOption.none, Option.none) := by
  refine ⟨?_, ?_, rfl⟩ <;>
    · cases h : (p v).2 <;>
        simp [take_if, ConcurrentOption.some, ConcurrentOption.none,
          SOME, RESERVED, NONE, h]

/-- C5: `replace(v)` on a `Some(old)`-state option stores `v`, returns
`Some old` and the option stays in the `Some` state; on a `None`-state
option it stores `v`, returns `None` and the option ends in the `Some`
state. -/
theorem replace_spec {T : Type} (v old : T) :
    replace (ConcurrentOption.some old) v
      = Option.some (ConcurrentOption.some v, Option.some old)
  ∧ replace (ConcurrentOption.none : ConcurrentOption T) v
      = Option.some (ConcurrentOption.some v, Option.none) :=
  ⟨rfl, rfl⟩

/-- C6 (counterexample): `Handle::get` observing the `RESERVED`
(InTransition) tag while expecting `SOME` returns `None` — precisely because
of the transient state, contradicting the claim that it never returns `None`
merely because the observed tag is `RESERVED`. -/
theorem handle_get_reserved_cex :
    Handle.get RESERVED SOME NONE = Option.none := by decide

/-- C6 (amended): the non-spinning `Handle::get` returns `None` on any
observed tag different from the expected one, `RESERVED` included (so
`initialize_if_none` on a `RESERVED`-tagged option simply returns `false`);
it is the spinning acquisition `Handle::spin_get` that never definitively
fails merely because of `RESERVED`: observing `RESERVED` makes it retry
(divergence in the sequential model), and it fails exactly on a definitive
non-`RESERVED` mismatch. -/
theorem handle_get_amended {T : Type} (current initial success : StateU8)
    (c : Option T) (v : T) :
    (Handle.get current initial success = Option.none ↔ current ≠ initial)
  ∧ (Handle.spinGet current initial success = SpinResult.failed
      ↔ (current ≠ initial ∧ current ≠ RESERVED))
  ∧ initialize_if_none (⟨c, RESERVED⟩ : ConcurrentOption T) v
      = (⟨c, RESERVED⟩, false) := by
  refine ⟨?_, ?_, rfl⟩
  · by_cases h : current = initial <;> simp [Handle.get, h]
  · by_cases hr : current = RESERVED
    · subst hr
      by_cases h : RESERVED = initial <;> simp [Handle.spinGet, h]
    · by_cases h : current = initial <;> simp [Handle.spinGet, h, hr]

/-- C7 (counterexample): the predicate passed to `take_if` panicking inside
the critical section leaves the tag `RESERVED` — not a terminal state —
because `take_if` enters via a raw compare-exchange and holds no RAII
handle, so nothing republishes a terminal tag during unwinding. -/
theorem take_if_panic_cex :
    take_ifUnwind (ConcurrentOption.some 0) (fun x : Nat => (x, Option.none))
      = Option.some ((⟨Option.some 0, RESERVED⟩ : ConcurrentOption Nat),
          PanicOr.panicked)
  ∧ RESERVED ≠ SOME ∧ RESERVED ≠ NONE :=
  ⟨rfl, by decide, by decide⟩

/-- C7 (amended): panic behavior of the three closure-taking operations on a
`Some(v)`-state option.  `map` applies its closure outside any critical
section (after `exclusive_take` has already published the terminal tag
`NONE`), so no tag is left `RESERVED` whether or not the closure panics;
`update_if_some` holds the RAII handle, whose drop runs during unwinding and
publishes the terminal tag `SOME` even when the closure panics; but
`take_if` holds no handle, and a panicking predicate leaves the tag
`RESERVED`. -/
theorem closure_panic_spec {T U : Type} (v : T) (f : T → Option U)
    (g : T → T × Bool) (q : T → T) :
    mapUnwind (ConcurrentOption.some v) f
      = Option.some ((ConcurrentOption.none : ConcurrentOption T),
          match f v with
          | Option.some u => PanicOr.ok (Option.some u)
          | Option.none => PanicOr.panicked)
  ∧ update_if_someUnwind (ConcurrentOption.some v) g
      = Option.some ((⟨Option.some (g v).1, SOME⟩ : ConcurrentOption T),
          if (g v).2 then PanicOr.panicked else PanicOr.ok true)
  ∧ take_ifUnwind (ConcurrentOption.some v) (fun x => (q x, Option.none))
      = Option.some ((⟨Option.some (q v), RESERVED⟩ : ConcurrentOption T),
          PanicOr.panicked) := by
  refine ⟨?_, ?_, ?_⟩
  · cases h : f v <;>
      simp [mapUnwind, exclusive_take, loadState, State.new,
        ConcurrentOption.some, ConcurrentOption.none, SOME, NONE, RESERVED, h]
  · cases h : (g v).2 <;>
      simp [update_if_someUnwind, Handle.spinGet, ConcurrentOption.some,
        SOME, NONE, RESERVED, h]
  · simp [take_ifUnwind, ConcurrentOption.some, SOME, NONE, RESERVED]

/-- C8: dropping a `ConcurrentOption` reads the tag with `Relaxed` ordering
(see the definition of `drop_impl`) and runs the contained value's
destructor when the tag is `SOME`, does nothing when it is `NONE`, and
panics when it is `RESERVED`. -/
theorem drop_impl_spec {T : Type} (v : T) (c : Option T) :
    drop_impl (ConcurrentOption.some v) = DropAction.dropsValue (Option.some v)
  ∧ drop_impl (ConcurrentOption.none : ConcurrentOption T) = DropAction.nothing
  ∧ drop_impl (⟨c, RESERVED⟩ : ConcurrentOption T) = DropAction.panics :=
  ⟨rfl, rfl, rfl⟩

/-- C9: `update_if_some(f)` returns `true` for every input state: on a
`Some(v)` option it updates the value in place and returns `true`; on a
`None` option it leaves the option `None`, never invokes `f` (the result is
independent of the closure) and still returns `true`, because the source
discards the inner match's result and returns the literal `true`. -/
theorem update_if_some_returns_true {T : Type} (v : T) (f g : T → T) :
    update_if_some (ConcurrentOption.some v) f
      = Option.some (ConcurrentOption.some (f v), true)
  ∧ update_if_some (ConcurrentOption.none : ConcurrentOption T) g
      = Option.some (ConcurrentOption.none, true) :=
  ⟨rfl, rfl⟩

/-- C10: for every memory ordering (and every option value),
`is_none_with_order` is exactly the boolean negation of
`is_some_with_order`; in particular an option whose tag is `RESERVED`
reports `is_some = false` and `is_none = true`, both through the
`_with_order` probes and through `is_some`/`is_none`, so the probes never
distinguish the `RESERVED` state from `NONE`. -/
theorem is_none_negation_spec {T : Type} (o : ConcurrentOption T)
    (order : AtomicOrdering) (c : Option T) :
    is_none_with_order o order = !(is_some_with_order o order)
  ∧ is_some_with_order (⟨c, RESERVED⟩ : ConcurrentOption T) order = false
  ∧ is_none_with_order (⟨c, RESERVED⟩ : ConcurrentOption T) order = true
  ∧ is_some (⟨c, RESERVED⟩ : ConcurrentOption T) = false
  ∧ is_none (⟨c, RESERVED⟩ : ConcurrentOption T) = true :=
  ⟨rfl, rfl, rfl, rfl, rfl⟩
